import Mathlib

/-
  Verification development for the h5j image container utilities
  (h5jutils.py): codec discovery, the channel codec bridge
  (extract_channel), the container reader (read_h5j) and the container
  writer (write_binary_h5j).

  External effects are modelled explicitly:
    * the ffmpeg engine is an oracle (probe metadata + transcode bytes);
    * Python exceptions are values of an error type, and fallible code
      returns Except;
    * a 3D numpy array is a shape triple plus its flat data, and a 4D
      array produced by stacking same-shaped 3D slices along a trailing
      axis is represented by the ordered list of those slices.
-/

namespace H5J

/-- Python exceptions that the modelled code can raise.  `bufferSize`,
`reshapeError` and `concatError` are all numpy `ValueError`s, kept apart
so that statements can name the exact failure site; `shapeError` is the
writer's explicit `ValueError("arr must be 4d or 3d.")`. -/
inductive PyError where
  | fileNotFound
  | indexError
  | keyError
  | nameError
  | typeError
  | bufferSize
  | reshapeError
  | concatError
  | shapeError
deriving Repr, DecidableEq

/-! ## Python string splitting

`str.split(sep)` with a non-empty separator: non-overlapping leftmost
matches, keeping empty pieces.  Implemented structurally (first match,
then fuel-bounded iteration; the fuel `length + 1` dominates the number
of pieces, so the result is exact). -/

/-- Locate the first occurrence of `sep` in a character list, returning
the text before it and the text after it. -/
def firstSplit (sep : List Char) : List Char → Option (List Char × List Char)
  | [] => none
  | c :: rest =>
    if sep.isPrefixOf (c :: rest) then some ([], (c :: rest).drop sep.length)
    else
      match firstSplit sep rest with
      | none => none
      | some (pre, post) => some (c :: pre, post)

/-- Fuel-bounded splitting loop; one unit of fuel per produced piece. -/
def splitAux (sep : List Char) : Nat → List Char → List (List Char)
  | 0, s => [s]
  | fuel + 1, s =>
    match firstSplit sep s with
    | none => [s]
    | some (pre, post) => pre :: splitAux sep fuel post

/-- Python `s.split(sep)` for a non-empty separator. -/
def pySplit (sep s : String) : List String :=
  (splitAux sep.data (s.data.length + 1) s.data).map String.mk

/-- Python `sub in s` substring test. -/
def pyContains (sub s : String) : Bool :=
  (firstSplit sub.data s.data).isSome

/-! ## Codec discovery (`get_hevc_codecs`)

The engine invocation `subprocess.Popen(["ffmpeg", "-codecs"])` is
modelled by an `Option String`: `none` when the engine binary is absent
(Python raises `FileNotFoundError`), `some out` for the decoded stdout
text. -/

/-- Loop body of `get_hevc_codecs`: for each line containing "hevc",
take `line.split("encoders: ")[1]` (an `IndexError` when the marker is
missing), cut at the first ")", split on single spaces and extend the
accumulator. -/
def collectHevc : List String → List String → Except PyError (List String)
  | [], acc => .ok acc
  | line :: rest, acc =>
    if pyContains "hevc" line then
      match (pySplit "encoders: " line).get? 1 with
      | none => .error .indexError
      | some t => collectHevc rest (acc ++ pySplit " " ((pySplit ")" t).headD ""))
    else collectHevc rest acc

/-- Model of `get_hevc_codecs()`: run `ffmpeg -codecs`, split its stdout
into lines and collect encoder identifiers from the hevc lines. -/
def get_hevc_codecs (engineOut : Option String) : Except PyError (List String) :=
  match engineOut with
  | none => .error .fileNotFound
  | some out => collectHevc (pySplit "\n" out) []

/-! ## Channel decode (`extract_channel`) -/

/-- Oracle for the external ffmpeg engine as used while decoding:
`probe` returns the stream metadata `(width, height, pix_fmt)` read by
`imageio_ffmpeg` from the temporary file holding the given bytes;
`transcode` returns the raw bytes ffmpeg emits on stdout when asked to
transcode that file to the given raw pixel format. -/
structure FFmpeg where
  probe : List Nat → Nat × Nat × String
  transcode : List Nat → String → List Nat

/-- Raw pixel-format resolution of `extract_channel` (lines 49-54 of the
source): probed format `gray12le(tv)` selects `gray12le` with 2-byte
elements (numpy `uint16`), anything else selects `yuv444p` with 1-byte
elements (numpy `uint8`). -/
def resolve_raw_format (pix_fmt : String) : String × Nat :=
  if pix_fmt = "gray12le(tv)" then ("gray12le", 2) else ("yuv444p", 1)

/-- Little-endian 16-bit reading of a byte list, as
`np.frombuffer(-, dtype=np.uint16)` does on a little-endian host. -/
def le16 : List Nat → List Nat
  | b0 :: b1 :: rest => (b0 + 256 * b1) :: le16 rest
  | _ => []

/-- Interpret raw bytes as elements of the given width (1 or 2). -/
def bytesToElems (elem : Nat) (bs : List Nat) : List Nat :=
  if elem = 2 then le16 bs else bs

/-- A dense 3D frame stack `(frames, height, width)` with its flat
row-major data. -/
structure Arr3 where
  frames : Nat
  height : Nat
  width : Nat
  data : List Nat
deriving Repr, DecidableEq

/-- Model of `extract_channel(raw_data)`: probe the stream, resolve the
raw pixel format, transcode to a raw byte stream, then
`np.frombuffer(stdout, dtype).reshape(-1, height, width)`.
`frombuffer` raises when the byte count is not a multiple of the element
width; `reshape(-1, height, width)` raises when the element count does
not split evenly into `height*width` frames (or when a dimension is 0,
since `-1` cannot be resolved then). -/
def extract_channel (ff : FFmpeg) (raw : List Nat) : Except PyError Arr3 :=
  let meta := ff.probe raw
  let width := meta.1
  let height := meta.2.1
  let fe := resolve_raw_format meta.2.2
  let out := ff.transcode raw fe.1
  if out.length % fe.2 ≠ 0 then .error .bufferSize
  else if height * width = 0 then .error .reshapeError
  else if (bytesToElems fe.2 out).length % (height * width) ≠ 0 then .error .reshapeError
  else .ok ⟨(bytesToElems fe.2 out).length / (height * width), height, width,
            bytesToElems fe.2 out⟩

/-! ## Container reader (`read_h5j`) -/

/-- An opened h5j container: global attributes (opaque, passed through),
the Channels group attributes, and the raw bytes of the datasets
`Channel_0 .. Channel_(K-1)` in index order. -/
structure Container where
  attrs : List (String × Int)
  frames : Nat
  height : Nat
  width : Nat
  pad_bottom : Nat
  pad_right : Nat
  datasets : List (List Nat)

/-- The signal array returned by `read_h5j`: either a single 3D stack,
or a 4D stack represented by its trailing-axis slices in order (the
result of `np.concatenate([c[:, :, :, None] for c in cs], axis=3)`). -/
inductive Signal where
  | s3 (a : Arr3)
  | s4 (chans : List Arr3)
deriving Repr, DecidableEq

/-- Number of axes of a returned signal array. -/
def Signal.rank : Signal → Nat
  | .s3 _ => 3
  | .s4 _ => 4

/-- The `signals` letter-to-index dictionary of `read_h5j`: bound only
when `num_channels` is 3 (RGB) or 1 (Y); `none` models the Python local
variable staying unbound (using it raises a name error). -/
def signalsMap (num_channels : Nat) : Option (Char → Option Nat) :=
  if num_channels = 3 then
    some (fun ch =>
      if ch = 'R' then some 0
      else if ch = 'G' then some 1
      else if ch = 'B' then some 2
      else none)
  else if num_channels = 1 then
    some (fun ch => if ch = 'Y' then some 0 else none)
  else none

/-- One iteration of the channel loop of `read_h5j`: look the letter up
in `signals` (name error if the dictionary was never bound, key error if
the letter is absent), fetch the dataset `Channel_i` (key error if
absent) and decode it. -/
def read_channel_step (ff : FFmpeg) (c : Container)
    (sigmap : Option (Char → Option Nat)) (channel : Char) : Except PyError Arr3 :=
  match sigmap with
  | none => .error .nameError
  | some m =>
    match m channel with
    | none => .error .keyError
    | some i =>
      match c.datasets.get? i with
      | none => .error .keyError
      | some raw => extract_channel ff raw

/-- Sequential effectful map: the Python for-loop accumulating decoded
channels, aborting at the first exception. -/
def mapExcept {α β : Type} (g : α → Except PyError β) : List α → Except PyError (List β)
  | [] => .ok []
  | a :: as =>
    match g a with
    | .error e => .error e
    | .ok b =>
      match mapExcept g as with
      | .error e => .error e
      | .ok bs => .ok (b :: bs)

/-- Model of `np.concatenate([c[:, :, :, None] for c in cs], axis=3)`:
raises on an empty list and on mismatched slice shapes, otherwise the 4D
stack of the slices in list order. -/
def concatSignals (cs : List Arr3) : Except PyError Signal :=
  match cs with
  | [] => .error .concatError
  | a :: rest =>
    if rest.all fun b => b.frames == a.frames && b.height == a.height && b.width == a.width
    then .ok (.s4 (a :: rest))
    else .error .concatError

/-- Signal assembly of `read_h5j` (lines 127-131): `signal` starts as
`None`; when `num_channels == 3` the decoded channels are concatenated
on a new trailing axis; when `num_channels == 1` the first decoded
channel is taken (`signal_channels[0]`, an index error when empty);
otherwise `signal` stays `None`. -/
def assembleSignal (num_channels : Nat) (signal_channels : List Arr3) :
    Except PyError (Option Signal) :=
  if num_channels = 3 then (concatSignals signal_channels).map some
  else if num_channels = 1 then
    match signal_channels with
    | [] => .error .indexError
    | a :: _ => .ok (some (.s3 a))
  else .ok none

/-- Reference extraction of `read_h5j`: when requested, fetch and decode
the dataset `Channel_{num_channels}`. -/
def readReference (ff : FFmpeg) (c : Container) (num_channels : Nat)
    (reference : Bool) : Except PyError (Option Arr3) :=
  if reference then
    match c.datasets.get? num_channels with
    | none => .error .keyError
    | some raw => (extract_channel ff raw).map some
  else .ok none

/-- Model of `read_h5j(filename, channels, reference)`.  `channels` is
`none` when the Python argument is `None`.  `num_channels` is the
dataset count minus one (for an empty dataset list Python computes -1
and the Nat model 0; both make the signals dictionary unbound and the
reference lookup a key error, so the observable behaviour agrees).  The
physical frame/height/width attribute reads (source lines 103-105) are
kept as unused bindings exactly as in the source. -/
def read_h5j (ff : FFmpeg) (c : Container) (channels : Option String)
    (reference : Bool) :
    Except PyError (Option Signal × Option Arr3 × List (String × Int)) :=
  let _nframes := c.frames
  let _height := c.height + c.pad_bottom
  let _width := c.width + c.pad_right
  let num_channels := c.datasets.length - 1
  let sigmap := signalsMap num_channels
  let channels :=
    match channels with
    | none =>
      if num_channels = 3 then some "RGB"
      else if num_channels = 1 then some "Y"
      else none
    | some s => some s
  match channels with
  | none => .error .typeError
  | some s =>
    match mapExcept (read_channel_step ff c sigmap) s.data with
    | .error e => .error e
    | .ok signal_channels =>
      match assembleSignal num_channels signal_channels with
      | .error e => .error e
      | .ok signal =>
        match readReference ff c num_channels reference with
        | .error e => .error e
        | .ok ref => .ok (signal, ref, c.attrs)

/-! ## Container writer (`write_binary_h5j`) -/

/-- Input array of the writer: a shape list plus flat row-major data. -/
structure NArr where
  shape : List Nat
  data : List Nat

/-- The file produced by the writer: the Channels group attributes and
the datasets `Channel_0 ..` in order, each with its content-type tag. -/
structure WrittenFile where
  frames : Nat
  height : Nat
  width : Nat
  pad_bottom : Nat
  pad_right : Nat
  datasets : List (List Nat × String)
deriving Repr, DecidableEq

/-- Trailing-axis slice `arr[:, :, :, n]` of a flat 4D array of shape
`(F, H, W, K)` in row-major order. -/
def slice4 (data : List Nat) (F H W K n : Nat) : List Nat :=
  (List.range (F * H * W)).map fun i => data.getD (i * K + n) 0

/-- Model of `write_binary_h5j(filename, arr, codec)`.  The external
encoder pipeline (`encode_channel`) is the oracle `enc` turning one 3D
channel slice into the compressed container bytes.  A rank-3 array is
expanded with a trailing axis of length 1; a rank outside {3,4} raises
`ValueError("arr must be 4d or 3d.")` before the output file is touched
(the result does not depend on `enc` in that case). -/
def write_binary_h5j (enc : Arr3 → List Nat) (arr : NArr) :
    Except PyError WrittenFile :=
  match arr.shape with
  | [nframes, height, width] =>
    .ok { frames := nframes, height := height, width := width,
          pad_bottom := 0, pad_right := 0,
          datasets := (List.range 1).map fun n =>
            (enc ⟨nframes, height, width, slice4 arr.data nframes height width 1 n⟩,
             "signal") }
  | [nframes, height, width, nchannels] =>
    .ok { frames := nframes, height := height, width := width,
          pad_bottom := 0, pad_right := 0,
          datasets := (List.range nchannels).map fun n =>
            (enc ⟨nframes, height, width,
                  slice4 arr.data nframes height width nchannels n⟩,
             "signal") }
  | _ => .error .shapeError

/-! ## Concrete fixtures

A trivial engine oracle (every stream probes as a 1x1 8-bit video and
transcoding returns the input bytes unchanged) and small containers with
2, 3 and 4 datasets. -/

/-- Identity-like engine oracle: 1x1 frames, 8-bit, transcode = id. -/
def ffId : FFmpeg := ⟨fun _ => (1, 1, "p"), fun raw _ => raw⟩

/-- A 2-dataset container (single Y signal + reference). -/
def cds2 : Container :=
  { attrs := [], frames := 1, height := 1, width := 1,
    pad_bottom := 0, pad_right := 0, datasets := [[7], [8]] }

/-- A 3-dataset container (unsupported count). -/
def cds3 : Container :=
  { attrs := [], frames := 1, height := 1, width := 1,
    pad_bottom := 0, pad_right := 0, datasets := [[1], [2], [3]] }

/-- A 4-dataset container (R, G, B signals + reference). -/
def cds4 : Container :=
  { attrs := [], frames := 1, height := 1, width := 1,
    pad_bottom := 0, pad_right := 0, datasets := [[10], [20], [30], [99]] }

/-- Engine oracle probing 2x1 12-bit grayscale streams whose transcode
output is a fixed 8-byte buffer. -/
def ffGray : FFmpeg :=
  ⟨fun _ => (2, 1, "gray12le(tv)"), fun _ _ => [1, 0, 2, 0, 3, 0, 4, 0]⟩

/-- Whether a fallible computation succeeded. -/
def isOkE {α : Type} : Except PyError α → Bool
  | .ok _ => true
  | .error _ => false

/-! ## Helper lemmas -/

/-- Reading 16-bit elements halves the byte count (integer division). -/
theorem le16_length : ∀ l : List Nat, (le16 l).length = l.length / 2
  | [] => rfl
  | [_] => by simp [le16]
  | _ :: _ :: rest => by
    simp only [le16, List.length_cons, le16_length rest]
    omega

/-- Element count of a decoded raw buffer, for the element widths the
resolver can produce. -/
theorem bytesToElems_length (elem : Nat) (bs : List Nat)
    (h : elem = 1 ∨ elem = 2) :
    (bytesToElems elem bs).length = bs.length / elem := by
  rcases h with h | h <;> subst h
  · simp [bytesToElems]
  · simp [bytesToElems, le16_length]

/-- A loop whose every iteration succeeds collects the per-element
results in order. -/
theorem mapExcept_ok {α β : Type} (g : α → Except PyError β) (f : α → β) :
    ∀ l : List α, (∀ x ∈ l, g x = .ok (f x)) → mapExcept g l = .ok (l.map f) := by
  intro l
  induction l with
  | nil => intro _; rfl
  | cons a as ih =>
    intro h
    have ha := h a (List.mem_cons_self a as)
    have hrest := ih fun x hx => h x (List.mem_cons_of_mem a hx)
    simp [mapExcept, ha, hrest]

/-- A loop aborts with the exception of its first failing iteration. -/
theorem mapExcept_error_append {α β : Type} (g : α → Except PyError β)
    (pre : List α) (x : α) (rest : List α) (e : PyError)
    (hpre : ∀ y ∈ pre, ∃ b, g y = .ok b) (hx : g x = .error e) :
    mapExcept g (pre ++ x :: rest) = .error e := by
  induction pre with
  | nil => simp [mapExcept, hx]
  | cons a as ih =>
    obtain ⟨b, hb⟩ := hpre a (List.mem_cons_self a as)
    have hrest := ih fun y hy => hpre y (List.mem_cons_of_mem a hy)
    simp [mapExcept, hb, hrest]

/-- The codec-collection loop leaves its accumulator untouched when no
line mentions the codec family. -/
theorem collectHevc_no_family (ls : List String) (acc : List String)
    (h : ∀ l ∈ ls, pyContains "hevc" l = false) :
    collectHevc ls acc = .ok acc := by
  induction ls generalizing acc with
  | nil => rfl
  | cons line rest ih =>
    have h1 : pyContains "hevc" line = false := h line (List.mem_cons_self _ _)
    have hrest := fun a => ih a fun l hl => h l (List.mem_cons_of_mem _ hl)
    simp [collectHevc, h1, hrest]

/-- Concatenating a non-empty family of same-shaped slices stacks them
in list order. -/
theorem concatSignals_ok (cs : List Arr3) (F H W : Nat)
    (hne : cs ≠ [])
    (hsh : ∀ b ∈ cs, b.frames = F ∧ b.height = H ∧ b.width = W) :
    concatSignals cs = .ok (.s4 cs) := by
  cases cs with
  | nil => exact absurd rfl hne
  | cons a rest =>
    have ha := hsh a (List.mem_cons_self a rest)
    have hall : (rest.all fun b =>
        b.frames == a.frames && b.height == a.height && b.width == a.width) = true := by
      apply List.all_eq_true.2
      intro b hb
      have hbs := hsh b (List.mem_cons_of_mem a hb)
      simp [ha.1, ha.2.1, ha.2.2, hbs.1, hbs.2.1, hbs.2.2]
    simp [concatSignals, hall]

/-! ## Claims -/

/-- C1: the spec (and the docstring of `read_h5j`) promises that an
empty channel string yields `signal is None` with the attributes (and,
when requested, the reference) still returned.  The code instead raises:
on a 2-dataset container `signal_channels[0]` is an `IndexError` on the
empty list, and on a 4-dataset container `np.concatenate([], axis=3)` is
a `ValueError`, in both cases before the reference is extracted and
before anything is returned.  This theorem evaluates the model at the
failing inputs. -/
theorem read_h5j_empty_channels_raises :
    read_h5j ffId cds2 (some "") false = .error .indexError
    ∧ read_h5j ffId cds4 (some "") false = .error .concatError
    ∧ read_h5j ffId cds2 (some "") true = .error .indexError :=
  ⟨rfl, rfl, rfl⟩

/-- C3 counterexample: `get_hevc_codecs` does not return an empty
sequence for every failure.  With the engine absent, `subprocess.Popen`
raises `FileNotFoundError` (there is no handler), and an output line
that mentions the codec family but lacks the `"encoders: "` marker makes
`line.split("encoders: ")[1]` raise `IndexError`. -/
theorem get_hevc_codecs_counterexample :
    get_hevc_codecs none = .error .fileNotFound
    ∧ get_hevc_codecs none ≠ .ok []
    ∧ get_hevc_codecs (some "DEV hevc broken line") = .error .indexError :=
  ⟨rfl, fun h => Except.noConfusion h, rfl⟩

/-- C3 (amended): `get_hevc_codecs` returns an empty sequence when the
engine runs and no line of its output mentions the codec family; when
the engine binary is absent the call raises a file-not-found error
instead of returning empty. -/
theorem get_hevc_codecs_failure_behavior :
    get_hevc_codecs none = .error .fileNotFound
    ∧ ∀ out : String,
        (∀ line ∈ pySplit "\n" out, pyContains "hevc" line = false) →
        get_hevc_codecs (some out) = .ok [] := by
  refine ⟨rfl, fun out h => ?_⟩
  exact collectHevc_no_family _ _ h

/-- C3 witness: a concrete engine output with no hevc line parses to the
empty sequence. -/
theorem get_hevc_codecs_failure_behavior_witness :
    get_hevc_codecs (some "no codecs here") = .ok [] :=
  get_hevc_codecs_failure_behavior.2 "no codecs here" (by decide)

/-- C4 counterexample: a container with 3 datasets does not raise a
classified shape error on read.  With `channels=""` the read silently
succeeds and returns `signal = None` together with the attributes. -/
theorem read_h5j_three_datasets_counterexample :
    read_h5j ffId cds3 (some "") false = .ok (none, none, []) := rfl

/-- C4 (amended): on a container whose dataset count is outside {2,4}
the `signals` dictionary is never bound, so a read with a non-empty
channel string fails with an unclassified name-resolution error before
any channel is decoded, a read with `channels=None` fails with a type
error when iterating `None`, and a read with an empty channel string
does not fail at all and returns `signal = None`. -/
theorem read_h5j_unsupported_count_behavior :
    (∀ (ff : FFmpeg) (c : Container) (s : String) (r : Bool),
      c.datasets.length ≠ 2 → c.datasets.length ≠ 4 → s.data ≠ [] →
      read_h5j ff c (some s) r = .error .nameError)
    ∧ (∀ (ff : FFmpeg) (c : Container) (r : Bool),
      c.datasets.length ≠ 2 → c.datasets.length ≠ 4 →
      read_h5j ff c none r = .error .typeError)
    ∧ (∀ (ff : FFmpeg) (c : Container),
      c.datasets.length ≠ 2 → c.datasets.length ≠ 4 →
      read_h5j ff c (some "") false = .ok (none, none, c.attrs)) := by
  have hm : ∀ n : Nat, n ≠ 2 → n ≠ 4 → signalsMap (n - 1) = none := by
    intro n h2 h4
    unfold signalsMap
    rw [if_neg (by omega), if_neg (by omega)]
  refine ⟨?_, ?_, ?_⟩
  · intro ff c s r h2 h4 hne
    obtain ⟨data⟩ := s
    cases data with
    | nil => exact absurd rfl hne
    | cons ch rest =>
      simp [read_h5j, hm _ h2 h4, mapExcept, read_channel_step]
  · intro ff c r h2 h4
    have h3 : c.datasets.length - 1 ≠ 3 := by omega
    have h1 : c.datasets.length - 1 ≠ 1 := by omega
    simp [read_h5j, h3, h1]
  · intro ff c h2 h4
    have h3 : c.datasets.length - 1 ≠ 3 := by omega
    have h1 : c.datasets.length - 1 ≠ 1 := by omega
    have he : ("" : String).data = [] := rfl
    simp [read_h5j, he, mapExcept, assembleSignal, readReference, h3, h1]

/-- C4 witness: a 3-dataset container with a non-empty channel request
fails with the unclassified name error. -/
theorem read_h5j_unsupported_count_behavior_witness :
    read_h5j ffId cds3 (some "R") false = .error .nameError :=
  read_h5j_unsupported_count_behavior.1 ffId cds3 "R" false
    (by decide) (by decide) (by decide)

/-- C6: the raw pixel format used by the decode is resolved from the
probed pixel-format string: the 12-bit grayscale tag `gray12le(tv)`
selects the planar 12-bit grayscale raw format with 2-byte elements, and
every other probed string selects the planar 8-bit full-resolution
chroma format `yuv444p` with 1-byte elements. -/
theorem resolve_raw_format_selection :
    resolve_raw_format "gray12le(tv)" = ("gray12le", 2)
    ∧ ∀ pix : String, pix ≠ "gray12le(tv)" →
        resolve_raw_format pix = ("yuv444p", 1) := by
  refine ⟨rfl, fun pix h => ?_⟩
  unfold resolve_raw_format
  rw [if_neg h]

/-- C6 witness: an 8-bit probed format resolves to `yuv444p` with 1-byte
elements. -/
theorem resolve_raw_format_selection_witness :
    resolve_raw_format "yuv420p(tv)" = ("yuv444p", 1) :=
  resolve_raw_format_selection.2 "yuv420p(tv)" (by decide)

/-- C8: for every accepted input array (rank 3 or rank 4) the writer
persists channel-group attributes with frames, height and width taken
from the array shape and with `pad_bottom = pad_right = 0`, whatever the
encoder produces. -/
theorem write_binary_h5j_attrs :
    (∀ (enc : Arr3 → List Nat) (f h w : Nat) (d : List Nat),
      (write_binary_h5j enc ⟨[f, h, w], d⟩).map
        (fun fl => (fl.frames, fl.height, fl.width, fl.pad_bottom, fl.pad_right))
        = .ok (f, h, w, 0, 0))
    ∧ (∀ (enc : Arr3 → List Nat) (f h w k : Nat) (d : List Nat),
      (write_binary_h5j enc ⟨[f, h, w, k], d⟩).map
        (fun fl => (fl.frames, fl.height, fl.width, fl.pad_bottom, fl.pad_right))
        = .ok (f, h, w, 0, 0)) :=
  ⟨fun _ _ _ _ _ => rfl, fun _ _ _ _ _ _ => rfl⟩

/-- C9: an input array whose rank is neither 3 nor 4 makes the writer
raise the shape error `ValueError("arr must be 4d or 3d.")` immediately;
the result is the error for every encoder oracle, so no encoding is
attempted and no output file is produced. -/
theorem write_binary_h5j_bad_rank
    (enc : Arr3 → List Nat) (sh : List Nat) (d : List Nat)
    (h3 : sh.length ≠ 3) (h4 : sh.length ≠ 4) :
    write_binary_h5j enc ⟨sh, d⟩ = .error .shapeError := by
  rcases sh with _ | ⟨a, _ | ⟨b, _ | ⟨c, _ | ⟨e, _ | ⟨f, rest⟩⟩⟩⟩⟩
  · rfl
  · rfl
  · rfl
  · simp at h3
  · simp at h4
  · rfl

/-- C9 witness: a rank-2 array is rejected with the shape error. -/
theorem write_binary_h5j_bad_rank_witness :
    write_binary_h5j (fun _ => []) ⟨[2, 3], [0]⟩ = .error .shapeError :=
  write_binary_h5j_bad_rank (fun _ => []) [2, 3] [0] (by decide) (by decide)

/-- C2 counterexample: requesting the single channel "R" on a 4-dataset
container returns a 4D array with a trailing channel axis of length 1,
not a 3D array — the dimensionality is decided by the container class
(`num_channels == 3` always concatenates), not by the request size. -/
theorem read_h5j_single_request_counterexample :
    read_h5j ffId cds4 (some "R") false
      = .ok (some (.s4 [⟨1, 1, 1, [10]⟩]), none, [])
    ∧ Signal.rank (.s4 [⟨1, 1, 1, [10]⟩]) = 4 :=
  ⟨rfl, rfl⟩

/-- C2 (amended): a request naming exactly one signal channel returns a
3D array only on a 2-dataset container (`channels="Y"`); on a 4-dataset
container a single-letter request such as `channels="R"` returns a 4D
array whose trailing channel axis has length 1. -/
theorem read_h5j_single_channel_rank :
    (∀ (ff : FFmpeg) (g : List (String × Int)) (fr he wi pb pr : Nat)
        (d0 d1 : List Nat) (a : Arr3),
      extract_channel ff d0 = .ok a →
      read_h5j ff ⟨g, fr, he, wi, pb, pr, [d0, d1]⟩ (some "Y") false
        = .ok (some (.s3 a), none, g))
    ∧ (∀ (ff : FFmpeg) (g : List (String × Int)) (fr he wi pb pr : Nat)
        (d0 d1 d2 d3 : List Nat) (a : Arr3),
      extract_channel ff d0 = .ok a →
      read_h5j ff ⟨g, fr, he, wi, pb, pr, [d0, d1, d2, d3]⟩ (some "R") false
        = .ok (some (.s4 [a]), none, g)) := by
  constructor
  · intro ff g fr he wi pb pr d0 d1 a hx
    have hY : ("Y" : String).data = ['Y'] := rfl
    simp [read_h5j, hY, signalsMap, mapExcept, read_channel_step, hx,
          assembleSignal, readReference]
  · intro ff g fr he wi pb pr d0 d1 d2 d3 a hx
    have hR : ("R" : String).data = ['R'] := rfl
    simp [read_h5j, hR, signalsMap, mapExcept, read_channel_step, hx,
          assembleSignal, concatSignals, readReference, Except.map]

/-- C2 witness: on the concrete 2-dataset container, requesting "Y"
returns the decoded stack as a 3D array. -/
theorem read_h5j_single_channel_rank_witness :
    read_h5j ffId cds2 (some "Y") false
      = .ok (some (.s3 ⟨1, 1, 1, [7]⟩), none, []) :=
  read_h5j_single_channel_rank.1 ffId [] 1 1 1 0 0 [7] [8] ⟨1, 1, 1, [7]⟩ rfl

/-- C5: on a 4-dataset container the decoded per-channel stacks are
collected and concatenated in exactly the caller's request order: for a
request `s` whose letters all name signal channels (decoding to `f ch`
for each letter, all slices same-shaped), the result is the 4D stack of
`s.data.map f` — the request order, not the storage order. -/
theorem read_h5j_request_order
    (ff : FFmpeg) (g : List (String × Int)) (fr he wi pb pr : Nat)
    (d0 d1 d2 d3 : List Nat) (s : String) (f : Char → Arr3) (F H W : Nat)
    (hlen : 2 ≤ s.data.length)
    (hmem : ∀ ch ∈ s.data, ch = 'R' ∨ ch = 'G' ∨ ch = 'B')
    (hR : extract_channel ff d0 = .ok (f 'R'))
    (hG : extract_channel ff d1 = .ok (f 'G'))
    (hB : extract_channel ff d2 = .ok (f 'B'))
    (hshape : ∀ ch ∈ s.data,
      (f ch).frames = F ∧ (f ch).height = H ∧ (f ch).width = W) :
    read_h5j ff ⟨g, fr, he, wi, pb, pr, [d0, d1, d2, d3]⟩ (some s) false
      = .ok (some (.s4 (s.data.map f)), none, g) := by
  have hstep : ∀ ch ∈ s.data,
      read_channel_step ff ⟨g, fr, he, wi, pb, pr, [d0, d1, d2, d3]⟩
        (signalsMap 3) ch = .ok (f ch) := by
    intro ch hch
    rcases hmem ch hch with h | h | h <;> subst h
    · exact hR
    · exact hG
    · exact hB
  have hmap := mapExcept_ok _ f s.data hstep
  have hne : s.data.map f ≠ [] := by
    intro h
    have h0 : s.data.length = 0 := by simpa using congrArg List.length h
    omega
  have hsh : ∀ b ∈ s.data.map f, b.frames = F ∧ b.height = H ∧ b.width = W := by
    intro b hb
    obtain ⟨ch, hch, hfb⟩ := List.mem_map.1 hb
    exact hfb ▸ hshape ch hch
  have hcc := concatSignals_ok (s.data.map f) F H W hne hsh
  simp [read_h5j, hmap, assembleSignal, hcc, readReference, Except.map]

/-- C5 witness: requesting "BR" on the concrete 4-dataset container
returns the stack [B, R], not the storage order [R, B]. -/
theorem read_h5j_request_order_witness :
    read_h5j ffId cds4 (some "BR") false
      = .ok (some (.s4 [⟨1, 1, 1, [30]⟩, ⟨1, 1, 1, [10]⟩]), none, []) :=
  read_h5j_request_order ffId [] 1 1 1 0 0 [10] [20] [30] [99] "BR"
    (fun ch => if ch = 'B' then ⟨1, 1, 1, [30]⟩
               else if ch = 'G' then ⟨1, 1, 1, [20]⟩
               else ⟨1, 1, 1, [10]⟩) 1 1 1
    (by decide) (by decide) rfl rfl rfl (by decide)

/-- C7: the decode infers the frame count by dividing the raw byte count
by `height * width * element_width`: when the transcoded byte count is
evenly divisible the result is the stack with exactly that many frames,
and when it is not evenly divisible the decode fails (numpy
`frombuffer`/`reshape` raise) rather than truncating or padding. -/
theorem extract_channel_frames_division
    (ff : FFmpeg) (raw : List Nat) (w h : Nat) (pix fmt : String)
    (elem : Nat) (out : List Nat)
    (hp : ff.probe raw = (w, h, pix))
    (hr : resolve_raw_format pix = (fmt, elem))
    (ht : ff.transcode raw fmt = out)
    (hh : 0 < h) (hw : 0 < w) :
    (h * w * elem ∣ out.length →
      extract_channel ff raw
        = .ok ⟨out.length / (h * w * elem), h, w, bytesToElems elem out⟩)
    ∧ (¬ h * w * elem ∣ out.length → isOkE (extract_channel ff raw) = false) := by
  have helem : elem = 1 ∨ elem = 2 := by
    unfold resolve_raw_format at hr
    split at hr <;> simp_all
  have hepos : 0 < elem := by rcases helem with h | h <;> omega
  have hhw : ¬ h * w = 0 := by positivity
  have hunf : extract_channel ff raw =
      (if out.length % elem ≠ 0 then .error .bufferSize
       else if h * w = 0 then .error .reshapeError
       else if (bytesToElems elem out).length % (h * w) ≠ 0 then .error .reshapeError
       else .ok ⟨(bytesToElems elem out).length / (h * w), h, w,
                 bytesToElems elem out⟩) := by
    simp only [extract_channel, hp, hr, ht]
  have hblen := bytesToElems_length elem out helem
  constructor
  · intro hdvd
    obtain ⟨k, hk⟩ := hdvd
    have he1 : out.length % elem = 0 := by
      rw [hk, show h * w * elem * k = elem * (h * w * k) by ring]
      exact Nat.mul_mod_right elem _
    have hde : (bytesToElems elem out).length = h * w * k := by
      rw [hblen, hk, show h * w * elem * k = elem * (h * w * k) by ring]
      exact Nat.mul_div_cancel_left _ hepos
    have he2 : (bytesToElems elem out).length % (h * w) = 0 := by
      rw [hde]
      exact Nat.mul_mod_right (h * w) k
    have hdv : (bytesToElems elem out).length / (h * w) = out.length / (h * w * elem) := by
      rw [hde, hk, Nat.mul_div_cancel_left _ (by positivity : 0 < h * w),
          Nat.mul_div_cancel_left _ (by positivity : 0 < h * w * elem)]
    rw [hunf, if_neg (by simp [he1]), if_neg hhw, if_neg (by simp [he2]), hdv]
  · intro hnd
    by_cases hm : out.length % elem = 0
    · have hqd : elem ∣ out.length := Nat.dvd_of_mod_eq_zero hm
      obtain ⟨q, hq⟩ := hqd
      have hlq : (bytesToElems elem out).length = q := by
        rw [hblen, hq, Nat.mul_div_cancel_left _ hepos]
      have hq2 : ¬ h * w ∣ q := by
        intro ⟨t, ht2⟩
        exact hnd ⟨t, by rw [hq, ht2]; ring⟩
      have he2 : (bytesToElems elem out).length % (h * w) ≠ 0 := by
        rw [hlq]
        exact fun hz => hq2 (Nat.dvd_of_mod_eq_zero hz)
      rw [hunf, if_neg (by simp [hm]), if_neg hhw, if_pos he2]
      rfl
    · rw [hunf, if_pos hm]
      rfl

/-- C7 witness: a 12-bit 2x1 stream with an 8-byte raw buffer decodes to
8 / (1*2*2) = 2 frames with the little-endian 16-bit samples. -/
theorem extract_channel_frames_division_witness :
    extract_channel ffGray [] = .ok ⟨2, 1, 2, [1, 2, 3, 4]⟩ :=
  (extract_channel_frames_division ffGray [] 2 1 "gray12le(tv)" "gray12le" 2
    [1, 0, 2, 0, 3, 0, 4, 0] rfl rfl rfl (by decide) (by decide)).1 (by decide)

/-- C10: a requested channel letter outside the detected class's signal
set makes the read fail with the dictionary lookup error (`KeyError`) at
that letter — every earlier letter having decoded successfully — rather
than skipping the letter or substituting another channel. -/
theorem read_h5j_unknown_letter_lookup_error
    (ff : FFmpeg) (c : Container) (s : String) (pre : List Char) (ch : Char)
    (rest : List Char) (r : Bool)
    (hsd : s.data = pre ++ ch :: rest)
    (hpre : ∀ x ∈ pre, ∃ a,
      read_channel_step ff c (signalsMap (c.datasets.length - 1)) x = .ok a)
    (hcls : c.datasets.length = 2 ∧ ch ≠ 'Y'
          ∨ c.datasets.length = 4 ∧ ch ≠ 'R' ∧ ch ≠ 'G' ∧ ch ≠ 'B') :
    read_h5j ff c (some s) r = .error .keyError := by
  have hstep : read_channel_step ff c (signalsMap (c.datasets.length - 1)) ch
      = .error .keyError := by
    rcases hcls with ⟨h2, hy⟩ | ⟨h4, hcr, hcg, hcb⟩
    · rw [h2]
      simp [read_channel_step, signalsMap, hy]
    · rw [h4]
      simp [read_channel_step, signalsMap, hcr, hcg, hcb]
  have hmap := mapExcept_error_append _ pre ch rest _ hpre hstep
  rw [← hsd] at hmap
  simp [read_h5j, hmap]

/-- C10 witness: requesting "R" on the concrete 2-dataset container
(whose only signal letter is Y) fails with the lookup error. -/
theorem read_h5j_unknown_letter_lookup_error_witness :
    read_h5j ffId cds2 (some "R") false = .error .keyError :=
  read_h5j_unknown_letter_lookup_error ffId cds2 "R" [] 'R' [] false rfl
    (by simp) (Or.inl ⟨rfl, by decide⟩)

end H5J
